import Mathlib

/-!
Shallow embedding of the cocoindex-io/examples documentation-site core:
the version-aware path rewriter (two variants of the VersionSelector
component), the tag filter of the DocCardList component, and the GitHub
star-count formatter, together with theorems settling the frozen claims.

Paths are modelled as lists of characters; JavaScript string scanning
(String.prototype.includes and the two regex replacements used by the
source) is embedded as leftmost-match scanning functions on those lists.
-/

/-- Boolean test that the pattern list is a prefix of the second list,
matching character by character. Embeds the anchored part of a JS regex
or string match at one scan position. -/
def startsWithL : List Char → List Char → Bool
  | [], _ => true
  | _ :: _, [] => false
  | p :: ps, c :: cs => p == c && startsWithL ps cs

/-- Leftmost-scan substring test: embeds JS String.prototype.includes,
which reports whether the pattern occurs anywhere in the string. -/
def containsL (pat : List Char) : List Char → Bool
  | [] => startsWithL pat []
  | c :: cs => startsWithL pat (c :: cs) || containsL pat cs

/-- Strip the pattern from the front of the list, returning the remainder
when the pattern is a prefix and none otherwise. -/
def stripStartL : List Char → List Char → Option (List Char)
  | [], s => some s
  | _ :: _, [] => none
  | p :: ps, c :: cs => if p == c then stripStartL ps cs else none

/-- Consume an optional version marker at the head of the list: the regex
group (-v\d+)? with a greedy digit run. Returns the remainder after the
marker when the head matches "-v" followed by at least one digit, and the
unchanged list otherwise. -/
def matchOptVer (s : List Char) : List Char :=
  match s with
  | '-' :: 'v' :: rest =>
    if (rest.takeWhile (fun c => c.isDigit)).isEmpty then s
    else rest.dropWhile (fun c => c.isDigit)
  | _ => s

/-- Embeds JS String.prototype.replace with the regex root(-v\d+)? and a
literal replacement: replace the leftmost occurrence of the root together
with an optional greedy version marker, leaving everything else intact.
Used by the src/components/VersionSelector variant when switching to the
non-default version. -/
def replaceOptVer (root repl : List Char) : List Char → List Char
  | [] => []
  | c :: cs =>
    match stripStartL root (c :: cs) with
    | some tail => repl ++ matchOptVer tail
    | none => c :: replaceOptVer root repl cs

/-- Embeds JS String.prototype.replace with the regex rootV\d+ (a root
that must carry a version marker, rootV ending in "-v") and a literal
replacement: replace the leftmost occurrence of rootV followed by a
greedy non-empty digit run; a scan position where rootV matches but no
digit follows is not a match and scanning continues one character later.
Used by the src/components/VersionSelector variant when switching back to
the default version. -/
def replaceVer (rootV repl : List Char) : List Char → List Char
  | [] => []
  | c :: cs =>
    match stripStartL rootV (c :: cs) with
    | some tail =>
      if (tail.takeWhile (fun c => c.isDigit)).isEmpty then
        c :: replaceVer rootV repl cs
      else repl ++ tail.dropWhile (fun c => c.isDigit)
    | none => c :: replaceVer rootV repl cs

/-- The examples path root, one of the two known roots. -/
def examplesRoot : List Char := "/examples".toList

/-- The docs path root, the other known root. -/
def docsRoot : List Char := "/docs".toList

/-- The examples root carrying the v1 version marker. -/
def examplesV1 : List Char := "/examples-v1".toList

/-- The docs root carrying the v1 version marker. -/
def docsV1 : List Char := "/docs-v1".toList

/-- The mandatory-marker scan pattern for the examples root ("-v" with
digits required by replaceVer at the match position). -/
def examplesVPat : List Char := "/examples-v".toList

/-- The mandatory-marker scan pattern for the docs root. -/
def docsVPat : List Char := "/docs-v".toList

/-- The target-path computation of the src/components/VersionSelector
variant (handleVersionChange lines 96-123 and the identical inline copy
in its keyboard handler): pick the examples branch when the path contains
the examples root, otherwise the docs branch when it contains the docs
root, otherwise leave the path unchanged; rewrite the matched root with
the regex replacement for the selected version. -/
def computeTargetPathA (p : List Char) (value : String) : List Char :=
  if value == "v0" then
    if containsL examplesRoot p then replaceVer examplesVPat examplesRoot p
    else if containsL docsRoot p then replaceVer docsVPat docsRoot p
    else p
  else if value == "v1" then
    if containsL examplesRoot p then replaceOptVer examplesRoot examplesV1 p
    else if containsL docsRoot p then replaceOptVer docsRoot docsV1 p
    else p
  else p

/-- Version detection from the current path, identical in both component
variants: the state is v1 exactly when the path contains a v1-marked
root, and v0 otherwise. -/
def detectVersion (p : List Char) : String :=
  if containsL examplesV1 p || containsL docsV1 p then "v1" else "v0"

/-- Transient state of the version-selector component: whether the
listbox is open, the currently detected version id, and the current URL
path from the router. -/
structure MenuState where
  isOpen : Bool
  currentVersion : String
  pathname : List Char
deriving DecidableEq

/-- Click transition of the src/components/VersionSelector variant:
a selection equal to the current version only closes the menu; any other
selection closes the menu and navigates to the computed target path
(window.location.href is always assigned in that branch). The navigation
request is the optional second component. -/
def handleVersionChangeA (st : MenuState) (value : String) : MenuState × Option (List Char) :=
  if value == st.currentVersion then (⟨false, st.currentVersion, st.pathname⟩, none)
  else (⟨false, st.currentVersion, st.pathname⟩, some (computeTargetPathA st.pathname value))

/-- A version option of the unnamed VersionSelector variant (part_006):
value, display label, and a disabled flag. -/
structure VersionOption where
  value : String
  label : String
  disabled : Bool
deriving DecidableEq

/-- The fixed option list of the part_006 variant: v0 enabled, the
v1 preview disabled. -/
def optionsB : List VersionOption :=
  [⟨"v0", "v0", false⟩, ⟨"v1", "v1-preview", true⟩]

/-- Root rewriting of the part_006 variant when v0 is selected: the bare
root of the matched section, with no sub-path preserved; the empty list
embeds the empty string newPath used when neither root matches. -/
def rootRewriteB (p : List Char) : List Char :=
  if containsL examplesRoot p then examplesRoot
  else if containsL docsRoot p then docsRoot
  else []

/-- Click transition of the part_006 variant (handleVersionChange lines
90-119): a disabled option returns immediately with no state change; a
selection equal to the current version closes the menu; otherwise the
menu closes and window.location.href is assigned the computed path (the
empty string when the value is not v0 or no root matches). -/
def handleVersionChangeStep (opts : List VersionOption) (st : MenuState) (value : String) :
    MenuState × Option (List Char) :=
  if ((opts.find? (fun o => o.value == value)).map VersionOption.disabled).getD false then
    (st, none)
  else if value == st.currentVersion then (⟨false, st.currentVersion, st.pathname⟩, none)
  else
    (⟨false, st.currentVersion, st.pathname⟩,
      some (if value == "v0" then rootRewriteB st.pathname else []))

/-- Pointer selection of an option in the part_006 variant: the onClick
handler is guarded, so a disabled option does nothing at all; an enabled
option runs the click transition. -/
def clickOption (opts : List VersionOption) (st : MenuState) (o : VersionOption) :
    MenuState × Option (List Char) :=
  if o.disabled then (st, none) else handleVersionChangeStep opts st o.value

/-- The values of the enabled options, in option-list order, as computed
by the part_006 keyboard handler. -/
def enabledValues (opts : List VersionOption) : List String :=
  (opts.filter (fun o => !o.disabled)).map (fun o => o.value)

/-- JS Array.prototype.indexOf: the index of the first occurrence, or -1
when the element is absent. -/
def jsIndexOf (l : List String) (x : String) : Int :=
  match l.findIdx? (fun y => y == x) with
  | none => -1
  | some k => (k : Int)

/-- Next option value chosen by the part_006 arrow-key handler: index of
the current version among the enabled values, moved one step down or up
with wrap-around, looked up in the enabled values. The out-of-range
lookup (empty enabled list) yields none, embedding the undefined array
read of the source. -/
def nextValue (opts : List VersionOption) (cur : String) (down : Bool) : Option String :=
  let ev := enabledValues opts
  let len : Int := ev.length
  let i := jsIndexOf ev cur
  let j := if down then (i + 1) % len else (i - 1 + len) % len
  ev.get? j.toNat

/-- The keyboard events the part_006 handler distinguishes. -/
inductive KeyEvent where
  | escape
  | arrowDown
  | arrowUp
  | other
deriving DecidableEq

/-- Arrow-key step of the part_006 keyboard handler: compute the next
enabled value; if it equals the current version just close the menu,
otherwise close the menu and navigate to the inline-computed path (the
bare root for v0, the empty path otherwise). The Bool component records
whether focus returns to the trigger. -/
def arrowStep (opts : List VersionOption) (st : MenuState) (down : Bool) :
    MenuState × Bool × Option (List Char) :=
  let newValue := nextValue opts st.currentVersion down
  if newValue == some st.currentVersion then
    (⟨false, st.currentVersion, st.pathname⟩, false, none)
  else
    (⟨false, st.currentVersion, st.pathname⟩, false,
      some (if newValue == some "v0" then rootRewriteB st.pathname else []))

/-- Keyboard handler of the part_006 variant (lines 47-88): installed
only while the menu is open; Escape closes the menu and refocuses the
trigger without navigating; the arrow keys run the arrow step; other
keys do nothing. -/
def handleKeyDownB (opts : List VersionOption) (st : MenuState) (k : KeyEvent) :
    MenuState × Bool × Option (List Char) :=
  if st.isOpen then
    match k with
    | .escape => (⟨false, st.currentVersion, st.pathname⟩, true, none)
    | .arrowDown => arrowStep opts st true
    | .arrowUp => arrowStep opts st false
    | .other => (st, false, none)
  else (st, false, none)

/-- A catalog entry as the DocCardList filter sees it: the optional tag
list of item.customProps.tags (none embeds a missing customProps, a
missing tags field, or a non-array value, all of which fail the
Array.isArray check of the source), plus a label standing for the rest
of the item. -/
structure CatalogEntry where
  label : String
  tags : Option (List String)
deriving DecidableEq

/-- The filteredItems computation of src/theme/DocCardList (lines 50-56):
with no selected tag (null, embedded as none, or the empty string, which
is falsy in JS) the item list is returned unchanged; otherwise the stable
filter keeps the items whose tags field is a defined array containing the
selected tag under exact string equality. -/
def computeVisible (items : List CatalogEntry) (selectedTag : Option String) :
    List CatalogEntry :=
  match selectedTag with
  | none => items
  | some t =>
    if t == "" then items
    else items.filter (fun e =>
      match e.tags with
      | some ts => ts.contains t
      | none => false)

/-- One render of the DocCardList component as a pure state reader: it
returns the externally supplied item list it was given (the component
never writes to it) together with the visible subset it displays. -/
def renderDocCardList (items : List CatalogEntry) (selectedTag : Option String) :
    List CatalogEntry × List CatalogEntry :=
  (items, computeVisible items selectedTag)

/-- A JS (number | null) star-count value as formatStars receives it:
null, NaN, or an integer count (star counts from the GitHub API are
integers). -/
inductive StarCount where
  | null
  | nan
  | num (c : Int)
deriving DecidableEq

/-- Math.round of the rational quotient c / d for a positive divisor d:
JS rounds half toward positive infinity, so the result is
floor(c / d + 1 / 2) = (2 * c + d) / (2 * d) under floor division, which
Int division by a positive divisor provides. -/
def mathRoundDiv (c d : Int) : Int := (2 * c + d) / (2 * d)

/-- The formatStars function of the unnamed GitHubStar component
(part_004 lines 83-93): "0" for null or NaN; the decimal digits (via
toLocaleString, which inserts no grouping below 1000) for counts below
1000; one-decimal k-notation via Math.round(count / 100) / 10 and
toFixed(1) below 10000; integer k-notation via Math.round(count / 1000)
from 10000 up. -/
def formatStars : StarCount → String
  | .null => "0"
  | .nan => "0"
  | .num c =>
    if c < 1000 then toString c
    else if c < 10000 then
      toString (mathRoundDiv c 100 / 10) ++ "." ++ toString (mathRoundDiv c 100 % 10) ++ "k"
    else toString (mathRoundDiv c 1000) ++ "k"

/-- Transient state of the GitHubStar component: the stored star count
and the loading flag. -/
structure StarComponentState where
  stars : StarCount
  loading : Bool
deriving DecidableEq

/-- The mount-time state of GitHubStar: no count yet, loading. -/
def initialStarState : StarComponentState := ⟨.null, true⟩

/-- One completed run of the fetchStars effect of part_004 (lines
99-113): on success the parsed count is stored; on failure the catch
block logs the error (the Bool component) and stores nothing; the
finally block always clears the loading flag; nothing is thrown in
either case. -/
def fetchStarsStep (st : StarComponentState) : Except String Int → StarComponentState × Bool
  | .ok n => (⟨.num n, false⟩, false)
  | .error _ => (⟨st.stars, false⟩, true)

/-- Scanning helper: a pattern that fails to match at the front keeps
failing when extended on the right. -/
theorem startsWithL_false_append (a b s : List Char) (h : startsWithL a s = false) :
    startsWithL (a ++ b) s = false := by
  induction a generalizing s with
  | nil => simp [startsWithL] at h
  | cons x xs ih =>
    cases s with
    | nil => rfl
    | cons c cs =>
      simp only [List.cons_append, startsWithL, Bool.and_eq_false_iff] at h ⊢
      rcases h with h | h
      · exact Or.inl h
      · exact Or.inr (ih cs h)

/-- Scanning helper: if a pattern occurs nowhere in a string, neither
does any right extension of that pattern. -/
theorem containsL_false_append (a b s : List Char) (h : containsL a s = false) :
    containsL (a ++ b) s = false := by
  induction s with
  | nil =>
    simp only [containsL] at h ⊢
    exact startsWithL_false_append a b [] h
  | cons c cs ih =>
    simp only [containsL, Bool.or_eq_false_iff] at h ⊢
    exact ⟨startsWithL_false_append a b _ h.1, ih h.2⟩

/-- The arrow-key handler can only ever produce the value of an enabled
option: its lookup is made in the enabled-values list. -/
theorem nextValue_mem (opts : List VersionOption) (cur : String) (down : Bool) (v : String)
    (h : nextValue opts cur down = some v) : v ∈ enabledValues opts :=
  List.get?_mem h

/-- Claim C4: for every entry list E and non-empty tag t, the visible
subset is exactly the entries whose tags field is a defined sequence
containing t under exact string equality; it is a stable subsequence of
E, and entries lacking a tags field or with an empty tags sequence never
appear. -/
theorem computeVisible_filter_correct (E : List CatalogEntry) (t : String) (ht : t ≠ "") :
    (computeVisible E (some t)).Sublist E ∧
    (∀ e, e ∈ computeVisible E (some t) ↔ e ∈ E ∧ ∃ ts, e.tags = some ts ∧ t ∈ ts) ∧
    (∀ e, e ∈ computeVisible E (some t) → e.tags ≠ none ∧ e.tags ≠ some []) := by
  have hbeq : (t == "") = false := by
    simpa using ht
  have hvis : computeVisible E (some t) = E.filter (fun e =>
      match e.tags with
      | some ts => ts.contains t
      | none => false) := by
    simp [computeVisible, hbeq]
  have hmem : ∀ e, e ∈ computeVisible E (some t) ↔ e ∈ E ∧ ∃ ts, e.tags = some ts ∧ t ∈ ts := by
    intro e
    rw [hvis, List.mem_filter]
    constructor
    · rintro ⟨he, hp⟩
      refine ⟨he, ?_⟩
      cases h : e.tags with
      | none => rw [h] at hp; exact absurd hp (by simp)
      | some ts =>
        rw [h] at hp
        exact ⟨ts, rfl, List.elem_iff.mp hp⟩
    · rintro ⟨he, ts, hts, hin⟩
      refine ⟨he, ?_⟩
      rw [hts]
      exact List.elem_iff.mpr hin
  refine ⟨?_, hmem, ?_⟩
  · rw [hvis]; exact List.filter_sublist E
  · intro e he
    rcases (hmem e).mp he with ⟨-, ts, hts, hin⟩
    refine ⟨by simp [hts], ?_⟩
    rw [hts]
    intro hcontra
    rw [Option.some_inj.mp hcontra] at hin
    exact List.not_mem_nil t hin

/-- Witness for C4 at the spec scenario: the four-entry list filtered by
the tag x yields exactly the first entry, and is a sublist of the
input. -/
theorem computeVisible_filter_correct_witness :
    (computeVisible [⟨"a", some ["x"]⟩, ⟨"b", some ["y"]⟩, ⟨"c", some []⟩, ⟨"d", none⟩]
        (some "x")).Sublist
      [⟨"a", some ["x"]⟩, ⟨"b", some ["y"]⟩, ⟨"c", some []⟩, ⟨"d", none⟩] ∧
    computeVisible [⟨"a", some ["x"]⟩, ⟨"b", some ["y"]⟩, ⟨"c", some []⟩, ⟨"d", none⟩]
        (some "x") = [⟨"a", some ["x"]⟩] :=
  ⟨(computeVisible_filter_correct _ "x" (by decide)).1, by decide⟩

/-- Claim C5: filtering with an absent selection (null) or the empty
string is the identity on the entry list. -/
theorem computeVisible_empty_identity : ∀ E : List CatalogEntry,
    computeVisible E none = E ∧ computeVisible E (some "") = E :=
  fun _ => ⟨rfl, rfl⟩

/-- Claim C8: the tag-filter component never mutates the supplied entry
list: a render hands back the very list it was given, every displayed
entry is an unmodified element of that list, and with no selection the
displayed list is the input list itself. -/
theorem filter_no_mutation (E : List CatalogEntry) (sel : Option String) :
    (renderDocCardList E sel).1 = E ∧
    (∀ e, e ∈ (renderDocCardList E sel).2 → e ∈ E) ∧
    renderDocCardList E none = (E, E) := by
  refine ⟨rfl, ?_, rfl⟩
  intro e he
  cases sel with
  | none => exact he
  | some t =>
    by_cases h : (t == "") = true
    · simpa [renderDocCardList, computeVisible, h] using he
    · simp only [renderDocCardList, computeVisible, h, if_false, Bool.false_eq_true] at he
      exact List.mem_of_mem_filter he

/-- Witness for C8: a concrete filtered entry is an element of the
original list. -/
theorem filter_no_mutation_witness :
    (⟨"a", some ["x"]⟩ : CatalogEntry) ∈ [(⟨"a", some ["x"]⟩ : CatalogEntry)] :=
  (filter_no_mutation [⟨"a", some ["x"]⟩] (some "x")).2.1 _ (by decide)

/-- Claim C9: when the star-count fetch fails, the error is caught and
logged, the step is total (no exception escapes the embedded handler),
loading ends, the stored count stays null, and the formatter renders the
default "0". -/
theorem fetchStars_failure_degrades : ∀ e : String,
    (fetchStarsStep initialStarState (.error e)).1.stars = StarCount.null ∧
    (fetchStarsStep initialStarState (.error e)).1.loading = false ∧
    (fetchStarsStep initialStarState (.error e)).2 = true ∧
    formatStars (fetchStarsStep initialStarState (.error e)).1.stars = "0" ∧
    ∀ st : StarComponentState, (fetchStarsStep st (.error e)).1.stars = st.stars :=
  fun _ => ⟨rfl, rfl, rfl, rfl, fun _ => rfl⟩

/-- Claim C10: formatStars is total; it renders "0" for null or NaN, the
decimal digits for counts in [0, 1000), one-decimal k-notation based on
Math.round(count / 100) with the decimal a single digit in [0, 10) for
counts in [1000, 10000) — in particular every count in [9950, 9999]
renders as "10.0k" — and integer k-notation based on
Math.round(count / 1000) from 10000 up. -/
theorem formatStars_spec :
    (formatStars .null = "0" ∧ formatStars .nan = "0") ∧
    (∀ c : Int, 0 ≤ c → c < 1000 → formatStars (.num c) = toString c) ∧
    (∀ c : Int, 1000 ≤ c → c < 10000 →
      10 ≤ mathRoundDiv c 100 ∧ mathRoundDiv c 100 ≤ 100 ∧
      0 ≤ mathRoundDiv c 100 % 10 ∧ mathRoundDiv c 100 % 10 < 10 ∧
      formatStars (.num c) =
        toString (mathRoundDiv c 100 / 10) ++ "." ++ toString (mathRoundDiv c 100 % 10) ++ "k") ∧
    (∀ c : Int, 9950 ≤ c → c ≤ 9999 → formatStars (.num c) = "10.0k") ∧
    (∀ c : Int, 10000 ≤ c → formatStars (.num c) = toString (mathRoundDiv c 1000) ++ "k") := by
  refine ⟨⟨rfl, rfl⟩, ?_, ?_, ?_, ?_⟩
  · intro c h0 h
    simp [formatStars, h]
  · intro c h1 h2
    refine ⟨?_, ?_, ?_, ?_, ?_⟩
    · unfold mathRoundDiv; omega
    · unfold mathRoundDiv; omega
    · omega
    · omega
    · simp only [formatStars]
      rw [if_neg (by omega), if_pos h2]
  · intro c h1 h2
    have hm : mathRoundDiv c 100 = 100 := by unfold mathRoundDiv; omega
    simp only [formatStars]
    rw [if_neg (by omega), if_pos (by omega), hm]
    rfl
  · intro c h
    simp only [formatStars]
    rw [if_neg (by omega), if_neg (by omega)]

/-- Witness for C10: the branch facts at counts 500, 1500, 9950 and
12345. -/
theorem formatStars_spec_witness :
    formatStars (.num 500) = toString (500 : Int) ∧
    formatStars (.num 1500) =
      toString (mathRoundDiv 1500 100 / 10) ++ "." ++ toString (mathRoundDiv 1500 100 % 10) ++ "k" ∧
    formatStars (.num 9950) = "10.0k" ∧
    formatStars (.num 12345) = toString (mathRoundDiv 12345 1000) ++ "k" :=
  ⟨formatStars_spec.2.1 500 (by norm_num) (by norm_num),
   (formatStars_spec.2.2.1 1500 (by norm_num) (by norm_num)).2.2.2.2,
   formatStars_spec.2.2.2.1 9950 (by norm_num) (by norm_num),
   formatStars_spec.2.2.2.2 12345 (by norm_num)⟩

/-- Claim C1 counterexample: from the path /blog/post-1, which matches
neither root, the src/components/VersionSelector variant computes a
non-empty target path (the unchanged path itself) and, when a different
version is selected, does perform a navigation, assigning that unchanged
path; so the computed target is not empty and the transition is not free
of navigation. -/
theorem unknownRoot_navigates_counterexample :
    containsL examplesRoot "/blog/post-1".toList = false ∧
    containsL docsRoot "/blog/post-1".toList = false ∧
    detectVersion "/blog/post-1".toList = "v0" ∧
    computeTargetPathA "/blog/post-1".toList "v1" = "/blog/post-1".toList ∧
    "/blog/post-1".toList ≠ ([] : List Char) ∧
    (handleVersionChangeA ⟨true, "v0", "/blog/post-1".toList⟩ "v1").2
      = some "/blog/post-1".toList := by
  decide

/-- Claim C1 (amended): for a path matching neither root, the part_006
variant computes an empty target path and, with the current version
detected from that path, selecting any of its options performs no
navigation and leaves the version unchanged (the v1 option is disabled,
v0 equals the detected version); the src/ variant instead leaves the
target path unchanged for every selected value (no root rewriting). -/
theorem unknownRoot_noop_amended (p : List Char)
    (hex : containsL examplesRoot p = false)
    (hdocs : containsL docsRoot p = false) :
    rootRewriteB p = [] ∧
    detectVersion p = "v0" ∧
    (∀ (st : MenuState) (o : VersionOption), st.currentVersion = detectVersion p →
      o ∈ optionsB →
      (clickOption optionsB st o).2 = none ∧
      (clickOption optionsB st o).1.currentVersion = st.currentVersion) ∧
    (∀ v : String, computeTargetPathA p v = p) := by
  have hex1 : containsL examplesV1 p = false := by
    have : examplesV1 = examplesRoot ++ "-v1".toList := rfl
    rw [this]
    exact containsL_false_append _ _ _ hex
  have hdocs1 : containsL docsV1 p = false := by
    have : docsV1 = docsRoot ++ "-v1".toList := rfl
    rw [this]
    exact containsL_false_append _ _ _ hdocs
  have hdet : detectVersion p = "v0" := by
    simp [detectVersion, hex1, hdocs1]
  refine ⟨by simp [rootRewriteB, hex, hdocs], hdet, ?_, ?_⟩
  · intro st o hcur ho
    rw [hdet] at hcur
    have ho' : o = ⟨"v0", "v0", false⟩ ∨ o = ⟨"v1", "v1-preview", true⟩ := by
      simpa [optionsB] using ho
    rcases ho' with h | h <;> subst h
    · simp [clickOption, handleVersionChangeStep, optionsB, hcur]
    · simp [clickOption]
  · intro v
    simp [computeTargetPathA, hex, hdocs]

/-- Witness for the amended C1 at the spec scenario path /blog/post-1:
empty part_006 target, and clicking the other (disabled) version option
navigates nowhere. -/
theorem unknownRoot_noop_amended_witness :
    rootRewriteB "/blog/post-1".toList = [] ∧
    (clickOption optionsB ⟨true, "v0", "/blog/post-1".toList⟩ ⟨"v1", "v1-preview", true⟩).2
      = none := by
  have h := unknownRoot_noop_amended "/blog/post-1".toList (by decide) (by decide)
  exact ⟨h.1, (h.2.2.1 ⟨true, "v0", "/blog/post-1".toList⟩ ⟨"v1", "v1-preview", true⟩
    (by decide) (by decide)).1⟩

/-- Claim C2 counterexample: the path /docs-v2/foo matches the docs root
and is detected as the default version v0 (only -v1 markers are
detected), yet switching to v1 and back to v0 yields /docs/foo, not the
original path: the stray -v2 marker is absorbed by the v1 rewrite. -/
theorem roundtrip_counterexample :
    detectVersion "/docs-v2/foo".toList = "v0" ∧
    containsL docsRoot "/docs-v2/foo".toList = true ∧
    computeTargetPathA "/docs-v2/foo".toList "v1" = "/docs-v1/foo".toList ∧
    computeTargetPathA (computeTargetPathA "/docs-v2/foo".toList "v1") "v0"
      = "/docs/foo".toList ∧
    computeTargetPathA (computeTargetPathA "/docs-v2/foo".toList "v1") "v0"
      ≠ "/docs-v2/foo".toList := by
  decide

/-- Claim C2 (amended): the round trip holds for every path anchored at
a known root whose suffix starts with no version marker and no digit
(and, for the docs root, contains the examples root nowhere): switching
to v1 rewrites the root to its -v1 form preserving the whole suffix, and
switching back restores the original path. -/
theorem roundtrip_amended (s : List Char)
    (h1 : matchOptVer s = s)
    (h2 : s.dropWhile (fun c => c.isDigit) = s)
    (h3 : containsL examplesRoot s = false) :
    (computeTargetPathA (docsRoot ++ s) "v1" = docsV1 ++ s ∧
     computeTargetPathA (docsV1 ++ s) "v0" = docsRoot ++ s ∧
     computeTargetPathA (computeTargetPathA (docsRoot ++ s) "v1") "v0" = docsRoot ++ s) ∧
    (computeTargetPathA (examplesRoot ++ s) "v1" = examplesV1 ++ s ∧
     computeTargetPathA (examplesV1 ++ s) "v0" = examplesRoot ++ s ∧
     computeTargetPathA (computeTargetPathA (examplesRoot ++ s) "v1") "v0"
       = examplesRoot ++ s) := by
  have cExD : containsL examplesRoot (docsRoot ++ s) = false := by
    have h : containsL examplesRoot (docsRoot ++ s) = containsL examplesRoot s := rfl
    rw [h]; exact h3
  have cExD1 : containsL examplesRoot (docsV1 ++ s) = false := by
    have h : containsL examplesRoot (docsV1 ++ s) = containsL examplesRoot s := rfl
    rw [h]; exact h3
  have cDD : containsL docsRoot (docsRoot ++ s) = true := rfl
  have cDD1 : containsL docsRoot (docsV1 ++ s) = true := rfl
  have cExE : containsL examplesRoot (examplesRoot ++ s) = true := rfl
  have cExE1 : containsL examplesRoot (examplesV1 ++ s) = true := rfl
  have hreplD : replaceOptVer docsRoot docsV1 (docsRoot ++ s) = docsV1 ++ matchOptVer s := rfl
  have hreplD1 : replaceVer docsVPat docsRoot (docsV1 ++ s)
      = docsRoot ++ s.dropWhile (fun c => c.isDigit) := rfl
  have hreplE : replaceOptVer examplesRoot examplesV1 (examplesRoot ++ s)
      = examplesV1 ++ matchOptVer s := rfl
  have hreplE1 : replaceVer examplesVPat examplesRoot (examplesV1 ++ s)
      = examplesRoot ++ s.dropWhile (fun c => c.isDigit) := rfl
  have hfwdD : computeTargetPathA (docsRoot ++ s) "v1" = docsV1 ++ s := by
    simp [computeTargetPathA, cExD, cDD, hreplD, h1]
  have hbackD : computeTargetPathA (docsV1 ++ s) "v0" = docsRoot ++ s := by
    simp [computeTargetPathA, cExD1, cDD1, hreplD1, h2]
  have hfwdE : computeTargetPathA (examplesRoot ++ s) "v1" = examplesV1 ++ s := by
    simp [computeTargetPathA, cExE, hreplE, h1]
  have hbackE : computeTargetPathA (examplesV1 ++ s) "v0" = examplesRoot ++ s := by
    simp [computeTargetPathA, cExE1, hreplE1, h2]
  exact ⟨⟨hfwdD, hbackD, by rw [hfwdD]; exact hbackD⟩,
    ⟨hfwdE, hbackE, by rw [hfwdE]; exact hbackE⟩⟩

/-- Witness for the amended C2 at the spec scenario: /docs/foo maps to
/docs-v1/foo under v1 and back to /docs/foo under v0. -/
theorem roundtrip_amended_witness :
    computeTargetPathA (docsRoot ++ "/foo".toList) "v1" = docsV1 ++ "/foo".toList ∧
    computeTargetPathA (docsV1 ++ "/foo".toList) "v0" = docsRoot ++ "/foo".toList :=
  ⟨(roundtrip_amended "/foo".toList (by decide) (by decide) (by decide)).1.1,
   (roundtrip_amended "/foo".toList (by decide) (by decide) (by decide)).1.2.1⟩

/-- Claim C3 counterexample: with target version v1 the rewrite is not
idempotent on the path /docs1: one application produces /docs-v11 (the
suffix digit merges into the inserted marker), a second application
produces /docs-v1. -/
theorem idempotent_counterexample :
    computeTargetPathA "/docs1".toList "v1" = "/docs-v11".toList ∧
    computeTargetPathA (computeTargetPathA "/docs1".toList "v1") "v1" = "/docs-v1".toList ∧
    computeTargetPathA (computeTargetPathA "/docs1".toList "v1") "v1"
      ≠ computeTargetPathA "/docs1".toList "v1" := by
  decide

/-- Claim C3 (amended): the rewrite is idempotent for both target
versions on every path anchored at a known root whose suffix starts with
no version marker and no digit, contains the examples root nowhere, and
carries no version-marked root (for the v0 direction). In general
idempotence fails, as the /docs1 counterexample shows. -/
theorem idempotent_amended (s : List Char)
    (h1 : matchOptVer s = s)
    (h2 : s.dropWhile (fun c => c.isDigit) = s)
    (h3 : containsL examplesRoot s = false)
    (h4 : replaceVer docsVPat docsRoot (docsRoot ++ s) = docsRoot ++ s)
    (h5 : replaceVer examplesVPat examplesRoot (examplesRoot ++ s) = examplesRoot ++ s) :
    (computeTargetPathA (computeTargetPathA (docsRoot ++ s) "v1") "v1"
       = computeTargetPathA (docsRoot ++ s) "v1" ∧
     computeTargetPathA (computeTargetPathA (docsRoot ++ s) "v0") "v0"
       = computeTargetPathA (docsRoot ++ s) "v0") ∧
    (computeTargetPathA (computeTargetPathA (examplesRoot ++ s) "v1") "v1"
       = computeTargetPathA (examplesRoot ++ s) "v1" ∧
     computeTargetPathA (computeTargetPathA (examplesRoot ++ s) "v0") "v0"
       = computeTargetPathA (examplesRoot ++ s) "v0") := by
  have cExD : containsL examplesRoot (docsRoot ++ s) = false := by
    have h : containsL examplesRoot (docsRoot ++ s) = containsL examplesRoot s := rfl
    rw [h]; exact h3
  have cExD1 : containsL examplesRoot (docsV1 ++ s) = false := by
    have h : containsL examplesRoot (docsV1 ++ s) = containsL examplesRoot s := rfl
    rw [h]; exact h3
  have cDD : containsL docsRoot (docsRoot ++ s) = true := rfl
  have cDD1 : containsL docsRoot (docsV1 ++ s) = true := rfl
  have cExE : containsL examplesRoot (examplesRoot ++ s) = true := rfl
  have cExE1 : containsL examplesRoot (examplesV1 ++ s) = true := rfl
  have hreplD : replaceOptVer docsRoot docsV1 (docsRoot ++ s) = docsV1 ++ matchOptVer s := rfl
  have hreplD2 : replaceOptVer docsRoot docsV1 (docsV1 ++ s)
      = docsV1 ++ s.dropWhile (fun c => c.isDigit) := rfl
  have hreplE : replaceOptVer examplesRoot examplesV1 (examplesRoot ++ s)
      = examplesV1 ++ matchOptVer s := rfl
  have hreplE2 : replaceOptVer examplesRoot examplesV1 (examplesV1 ++ s)
      = examplesV1 ++ s.dropWhile (fun c => c.isDigit) := rfl
  have hfwdD : computeTargetPathA (docsRoot ++ s) "v1" = docsV1 ++ s := by
    simp [computeTargetPathA, cExD, cDD, hreplD, h1]
  have hstepD : computeTargetPathA (docsV1 ++ s) "v1" = docsV1 ++ s := by
    simp [computeTargetPathA, cExD1, cDD1, hreplD2, h2]
  have hf0D : computeTargetPathA (docsRoot ++ s) "v0" = docsRoot ++ s := by
    simp [computeTargetPathA, cExD, cDD, h4]
  have hfwdE : computeTargetPathA (examplesRoot ++ s) "v1" = examplesV1 ++ s := by
    simp [computeTargetPathA, cExE, hreplE, h1]
  have hstepE : computeTargetPathA (examplesV1 ++ s) "v1" = examplesV1 ++ s := by
    simp [computeTargetPathA, cExE1, hreplE2, h2]
  have hf0E : computeTargetPathA (examplesRoot ++ s) "v0" = examplesRoot ++ s := by
    simp [computeTargetPathA, cExE, h5]
  refine ⟨⟨?_, ?_⟩, ⟨?_, ?_⟩⟩
  · rw [hfwdD, hstepD]
  · rw [hf0D]; exact hf0D
  · rw [hfwdE, hstepE]
  · rw [hf0E]; exact hf0E

/-- Witness for the amended C3: both target versions are idempotent on
/docs/foo. -/
theorem idempotent_amended_witness :
    computeTargetPathA (computeTargetPathA (docsRoot ++ "/foo".toList) "v1") "v1"
      = computeTargetPathA (docsRoot ++ "/foo".toList) "v1" ∧
    computeTargetPathA (computeTargetPathA (docsRoot ++ "/foo".toList) "v0") "v0"
      = computeTargetPathA (docsRoot ++ "/foo".toList) "v0" :=
  (idempotent_amended "/foo".toList (by decide) (by decide) (by decide) (by decide)
    (by decide)).1

/-- Claim C6: keyboard navigation operates only over enabled options —
the arrow-key result is always the value of an enabled option, the
three-option scenario wraps cyclically while skipping the disabled
middle option, Escape closes the menu and refocuses the trigger without
navigating, and the arrow-key navigation outcome coincides with the
click transition on the produced value. -/
theorem keyboard_navigation_enabled_only :
    (∀ (opts : List VersionOption) (st : MenuState), st.isOpen = true →
      handleKeyDownB opts st .escape = (⟨false, st.currentVersion, st.pathname⟩, true, none)) ∧
    (∀ (opts : List VersionOption) (cur : String) (down : Bool) (v : String),
      nextValue opts cur down = some v → v ∈ enabledValues opts) ∧
    (nextValue [⟨"A", "A", false⟩, ⟨"B", "B", true⟩, ⟨"C", "C", false⟩] "A" true = some "C" ∧
     nextValue [⟨"A", "A", false⟩, ⟨"B", "B", true⟩, ⟨"C", "C", false⟩] "C" true = some "A") ∧
    (∀ (st : MenuState) (v : String) (down : Bool), st.isOpen = true →
      nextValue optionsB st.currentVersion down = some v →
      (handleKeyDownB optionsB st (if down then .arrowDown else .arrowUp)).2.2 =
        (handleVersionChangeStep optionsB st v).2) := by
  refine ⟨?_, ?_, ⟨by decide, by decide⟩, ?_⟩
  · intro opts st hopen
    simp [handleKeyDownB, hopen]
  · exact fun opts cur down v h => nextValue_mem opts cur down v h
  · intro st v down hopen hv
    have hmem := nextValue_mem optionsB st.currentVersion down v hv
    have hev : enabledValues optionsB = ["v0"] := rfl
    rw [hev] at hmem
    have hv0 : v = "v0" := by simpa using hmem
    subst hv0
    have hfind :
        ((optionsB.find? (fun o => o.value == "v0")).map VersionOption.disabled).getD false
          = false := rfl
    by_cases hcur : st.currentVersion = "v0"
    · rw [hcur] at hv
      cases down <;>
        simp [handleKeyDownB, arrowStep, handleVersionChangeStep, hopen, hv, hcur, hfind]
    · have hne : ("v0" == st.currentVersion) = false := by
        rw [beq_eq_false_iff_ne]; exact fun h => hcur h.symm
      have hne2 : ((some "v0" : Option String) == some st.currentVersion) = false := by
        rw [beq_eq_false_iff_ne]; intro h; exact hcur (Option.some_inj.mp h).symm
      cases down <;>
        simp [handleKeyDownB, arrowStep, handleVersionChangeStep, hopen, hv, hfind, hne, hne2]

/-- Witness for C6: Escape on an open menu closes it, refocuses the
trigger and navigates nowhere. -/
theorem keyboard_navigation_enabled_only_witness :
    handleKeyDownB optionsB ⟨true, "v0", "/docs/foo".toList⟩ .escape
      = (⟨false, "v0", "/docs/foo".toList⟩, true, none) :=
  keyboard_navigation_enabled_only.1 optionsB ⟨true, "v0", "/docs/foo".toList⟩ rfl

/-- Claim C7: selecting a disabled option is silently ignored for every
state: a disabled option click leaves the state (including the current
version) untouched and navigates nowhere, the inner guard of the click
transition does the same whenever the looked-up option is disabled, and
the keyboard path can never even produce the disabled v1 value. -/
theorem disabled_option_ignored :
    (∀ (opts : List VersionOption) (st : MenuState) (o : VersionOption),
      o.disabled = true → clickOption opts st o = (st, none)) ∧
    (∀ (opts : List VersionOption) (st : MenuState) (value : String),
      ((opts.find? (fun o => o.value == value)).map VersionOption.disabled).getD false = true →
      handleVersionChangeStep opts st value = (st, none)) ∧
    (∀ (cur : String) (down : Bool), nextValue optionsB cur down ≠ some "v1") := by
  refine ⟨?_, ?_, ?_⟩
  · intro opts st o h
    simp [clickOption, h]
  · intro opts st value h
    simp [handleVersionChangeStep, h]
  · intro cur down h
    have hmem := nextValue_mem optionsB cur down "v1" h
    have hev : enabledValues optionsB = ["v0"] := rfl
    rw [hev] at hmem
    simp at hmem

/-- Witness for C7: clicking the disabled v1-preview option from an open
menu changes nothing and navigates nowhere. -/
theorem disabled_option_ignored_witness :
    clickOption optionsB ⟨true, "v0", "/docs/foo".toList⟩ ⟨"v1", "v1-preview", true⟩
      = (⟨true, "v0", "/docs/foo".toList⟩, none) :=
  disabled_option_ignored.1 optionsB ⟨true, "v0", "/docs/foo".toList⟩
    ⟨"v1", "v1-preview", true⟩ rfl
